import Mathlib

/-!
Verification of the resilient crawl-state engine of the Reddit_Scraper
repository against its natural-language specification.

The Python sources are shallowly embedded as executable Lean definitions:

* `pipeline.py` — `DeduplicationManager` (persistent set membership for
  subreddits and users), `UserExporter` (chunked export of collected users),
  `PipelineState` (batch checkpointing), and the save paths of all three;
* `src/checkpoint.py` — `ScraperState` serialization and `CheckpointManager`
  save/load/delete;
* `src/main.py` — the phase machine of `NSFWSubredditScraper.run` and the
  rate-limit recovery loop `_run_with_recovery`;
* `src/gluetun_controller.py` — `restart_for_new_ip` and its bounded
  consecutive-restart counter;
* `mini/scrape_commenters.py` — the bounded retry loops `fetch_with_retry`
  and the per-post `scrape_post_details` retry loop.

Python `set` values become `Finset String`, machine-level I/O becomes an
explicit `DiskOutcome` argument, and exceptions become `Except` results.
-/

namespace RedditScraper

/-- Model of Python `str.lower()` as used throughout `pipeline.py` for
case-insensitive subreddit and username normalization (faithful on ASCII
names, which is the character set of Reddit usernames and subreddits):
every character is lowercased. -/
def pyLower (s : String) : String := ⟨s.data.map Char.toLower⟩

/-! ## Dedup Store: `DeduplicationManager` (pipeline.py lines 81-279) -/

/-- The in-memory hash-set state of `DeduplicationManager`: `discovered`,
`processed` and `queued` subreddit sets plus the global `seen_users` set.
The persistence counters are modelled where a claim needs them. -/
structure DedupSets where
  discovered : Finset String
  processed : Finset String
  queued : Finset String
  seenUsers : Finset String
deriving DecidableEq

/-- `DeduplicationManager.filter_new_users` (pipeline.py lines 229-252):
lowercases the candidate set, subtracts `seen_users`, returns the original-case
users whose lowercase form is new, and unions the new lowercase names into
`seen_users`.  Result: `(returned new users, updated seen_users)`. -/
def filterNewUsers (seen : Finset String) (users : Finset String) :
    Finset String × Finset String :=
  let usersLower := users.image pyLower
  let newUsersLower := usersLower \ seen
  if newUsersLower = ∅ then
    (∅, seen)
  else
    (users.filter (fun u => pyLower u ∈ newUsersLower), seen ∪ newUsersLower)

/-- `DeduplicationManager.mark_subreddit_discovered` (pipeline.py 183-197):
adds the lowercased name to `discovered`; returns whether it was new. -/
def markSubredditDiscovered (s : DedupSets) (name : String) :
    DedupSets × Bool :=
  let nameLower := pyLower name
  if nameLower ∈ s.discovered then (s, false)
  else ({ s with discovered := insert nameLower s.discovered }, true)

/-- `DeduplicationManager.mark_subreddit_queued` (pipeline.py 199-201):
adds the lowercased name to `queued_subreddits`, with no other check. -/
def markSubredditQueued (s : DedupSets) (name : String) : DedupSets :=
  { s with queued := insert (pyLower name) s.queued }

/-- `DeduplicationManager.mark_subreddit_processed` (pipeline.py 203-211):
adds the lowercased name to `processed` and discards it from `queued`. -/
def markSubredditProcessed (s : DedupSets) (name : String) : DedupSets :=
  let nameLower := pyLower name
  { s with processed := insert nameLower s.processed,
           queued := s.queued.erase nameLower }

/-- `DeduplicationManager.clear_queue` (pipeline.py 213-215). -/
def clearQueue (s : DedupSets) : DedupSets :=
  { s with queued := ∅ }

/-- `DeduplicationManager.set_queue` (pipeline.py 217-219): replaces
`queued_subreddits` by the lowercased batch. -/
def setQueue (s : DedupSets) (subreddits : List String) : DedupSets :=
  { s with queued := (subreddits.map pyLower).toFinset }

/-- The `DedupState` invariant stated by the spec: `processed` is disjoint
from the transient `queued` set, and `processed ⊆ discovered`. -/
def DedupInvariant (s : DedupSets) : Prop :=
  s.processed ∩ s.queued = ∅ ∧ s.processed ⊆ s.discovered

instance (s : DedupSets) : Decidable (DedupInvariant s) := by
  unfold DedupInvariant; infer_instance

/-! ### C2: idempotent admission -/

/-- **C2** — For every set `S` of identity names (including casing variants),
if no member of `S` has been seen (case-insensitively), `filter_new_users S`
returns the full set `S`, and calling it again on the updated store returns
the empty set. -/
theorem filterNewUsers_idempotent_admission
    (seen users : Finset String)
    (h : ∀ u ∈ users, pyLower u ∉ seen) :
    (filterNewUsers seen users).1 = users ∧
      (filterNewUsers (filterNewUsers seen users).2 users).1 = ∅ := by
  have hdisj : Disjoint (users.image pyLower) seen := by
    rw [Finset.disjoint_left]
    intro x hx
    rcases Finset.mem_image.mp hx with ⟨u, hu, rfl⟩
    exact h u hu
  have hsdiff : users.image pyLower \ seen = users.image pyLower :=
    Finset.sdiff_eq_self_of_disjoint hdisj
  constructor
  · unfold filterNewUsers
    simp only [hsdiff]
    by_cases hempty : users.image pyLower = ∅
    · have : users = ∅ := by
        rcases Finset.eq_empty_or_nonempty users with h0 | h0
        · exact h0
        · exact absurd (Finset.Nonempty.image h0 pyLower)
            (by rw [hempty]; exact Finset.not_nonempty_empty)
      simp [hempty, this]
    · simp only [hempty, if_neg hempty]
      exact Finset.filter_true_of_mem
        (fun u hu => Finset.mem_image_of_mem pyLower hu)
  · unfold filterNewUsers
    simp only [hsdiff]
    by_cases hempty : users.image pyLower = ∅
    · simp [hempty]
    · simp only [hempty, if_neg hempty]
      have hsub : users.image pyLower ⊆ seen ∪ users.image pyLower :=
        Finset.subset_union_right
      have : users.image pyLower \ (seen ∪ users.image pyLower) = ∅ :=
        Finset.sdiff_eq_empty_iff_subset.mpr hsub

      simp [this]

/-- Witness for C2 at a concrete input: the store has seen nobody, the
candidate set is `{"Alice", "bob"}`. -/
theorem filterNewUsers_idempotent_admission_witness :
    (∀ u ∈ ({"Alice", "bob"} : Finset String), pyLower u ∉ (∅ : Finset String)) ∧
      ((filterNewUsers ∅ {"Alice", "bob"}).1 = {"Alice", "bob"} ∧
        (filterNewUsers (filterNewUsers ∅ {"Alice", "bob"}).2
          {"Alice", "bob"}).1 = ∅) :=
  ⟨by decide, filterNewUsers_idempotent_admission ∅ {"Alice", "bob"} (by decide)⟩

/-! ## Export Batcher: `UserExporter` (pipeline.py lines 410-537) -/

/-- `USERS_CHUNK_SIZE` (pipeline.py line 62). -/
def USERS_CHUNK_SIZE : Nat := 5000

/-- `USERS_EXPORT_THRESHOLD` (pipeline.py line 63). -/
def USERS_EXPORT_THRESHOLD : Nat := 5000

/-- The slicing loop of `export_chunks` (pipeline.py line 492):
`for i in range(0, len(users_list), USERS_CHUNK_SIZE)` — the slice start
offsets `0, n, 2n, …`, one per chunk, `⌈len/n⌉` of them. -/
def chunkStarts (n len : Nat) : List Nat :=
  (List.range ((len + n - 1) / n)).map (· * n)

/-- The chunks `users_list[i:i+USERS_CHUNK_SIZE]` cut by the slicing loop of
`export_chunks` (pipeline.py lines 492-493). -/
def chunksOf (n : Nat) (l : List String) : List (List String) :=
  (chunkStarts n l.length).map (fun i => (l.drop i).take n)

/-- The rows of one CSV chunk file (pipeline.py lines 497-502): a `username`
header row followed by one user per row, in chunk order. -/
def csvRows (chunk : List String) : List String :=
  "username" :: chunk

/-- The content of one JSON chunk file (pipeline.py lines 505-507):
`{"users": chunk, "count": len(chunk)}`. -/
def jsonDoc (chunk : List String) : List String × Nat :=
  (chunk, chunk.length)

/-- The list of chunk identity lists produced by one call of
`UserExporter.export_chunks` (pipeline.py lines 477-527): no-op below the
threshold unless forced, no-op on an empty buffer, otherwise the buffer is
sorted (Python `sorted`, case-sensitive lexicographic) and sliced. -/
def exportChunkLists (chunkSize threshold : Nat) (force : Bool)
    (pending : Finset String) : List (List String) :=
  if force = false ∧ pending.card < threshold then []
  else chunksOf chunkSize (pending.sort (· ≤ ·))

/-- One slice-offset step: `⌈(len+n)/n⌉ = ⌈len/n⌉ + 1` for `0 < n`. -/
theorem chunkStarts_length_succ (n len : Nat) (hn : 0 < n) (hlen : 0 < len) :
    (len + n - 1) / n = (len - 1) / n + 1 := by
  have h1 : len + n - 1 = (len - 1) + n := by omega
  rw [h1, Nat.add_div_right _ hn]

/-- The slicing loop produces exactly `⌈len/n⌉` chunks. -/
theorem chunksOf_length (n : Nat) (l : List String) :
    (chunksOf n l).length = (l.length + n - 1) / n := by
  simp [chunksOf, chunkStarts]

/-- Every chunk cut by the slicing loop has at most `n` members. -/
theorem chunksOf_le (n : Nat) (l : List String) :
    ∀ c ∈ chunksOf n l, c.length ≤ n := by
  intro c hc
  simp only [chunksOf, chunkStarts, List.mem_map, List.mem_range] at hc
  rcases hc with ⟨i, ⟨-, -⟩, rfl⟩
  simp [List.length_take]

/-- Concatenating the chunks cut by the slicing loop recovers the sorted
buffer: no element is lost or duplicated by slicing. -/
theorem chunksOf_flatten (n : Nat) (hn : 0 < n) (l : List String) :
    (chunksOf n l).flatten = l := by
  generalize hN : (l.length + n - 1) / n = N
  induction N generalizing l with
  | zero =>
      have hl : l.length = 0 := by
        have := (Nat.div_eq_zero_iff (by omega)).mp hN
        omega
      have : l = [] := List.eq_nil_of_length_eq_zero hl
      simp [chunksOf, chunkStarts, hN, this]
  | succ m ih =>
      have hlen : 0 < l.length := by
        by_contra h0
        have hl0 : l.length = 0 := by omega
        rw [hl0] at hN
        have hz : (0 + n - 1) / n = 0 := Nat.div_eq_of_lt (by omega)
        rw [hz] at hN
        exact Nat.noConfusion hN
      have hdrop : ((l.drop n).length + n - 1) / n = m := by
        rcases Nat.lt_or_ge l.length n with hlt | hge
        · have h1 : (l.drop n).length = 0 := by
            rw [List.length_drop]; omega
          have h2 : (l.length + n - 1) / n = 1 := by
            rw [chunkStarts_length_succ n l.length hn hlen,
              Nat.div_eq_of_lt (show l.length - 1 < n by omega)]
          rw [h2] at hN
          have hm : m = 0 := by omega
          rw [h1, hm]
          exact Nat.div_eq_of_lt (by omega)
        · have h1 : (l.drop n).length = l.length - n := List.length_drop n l
          have h2 : l.length + n - 1 = (l.length - n + n - 1) + n := by omega
          rw [h2, Nat.add_div_right _ hn] at hN
          rw [h1]
          exact Nat.add_right_cancel hN
      have hstep : chunksOf n l = l.take n :: chunksOf n (l.drop n) := by
        unfold chunksOf chunkStarts
        rw [hN, hdrop, List.range_succ_eq_map]
        simp only [List.map_cons, List.map_map, Nat.zero_mul, List.drop_zero]
        congr 1
        apply List.map_congr_left
        intro i _
        simp only [Function.comp_apply]
        rw [List.drop_drop, Nat.succ_mul, Nat.add_comm (i * n) n]
      rw [hstep, List.flatten_cons, ih (l.drop n) hdrop, List.take_append_drop]

/-! ### C4: chunk size invariant, chunk count, sorting, paired files -/

/-- **C4** — For every pending buffer and positive configured chunk size,
`export_chunks`:
(1) never produces a chunk with more than `chunkSize` identities (forced or
    not, any threshold);
(2) on a forced flush produces exactly `⌈pending/chunkSize⌉` chunks;
(3) slices the buffer sorted case-sensitively lexicographically — the
    concatenation of the forced chunks is the sorted pending buffer, in
    particular it is sorted and enumerates the buffer exactly;
(4) writes for each chunk a CSV file and a JSON file whose identity lists are
    identical (the CSV rows after the header equal the JSON `users` list, in
    the same order). -/
theorem export_chunks_spec (chunkSize threshold : Nat)
    (pending : Finset String) (force : Bool) (hn : 0 < chunkSize) :
    (∀ c ∈ exportChunkLists chunkSize threshold force pending,
        c.length ≤ chunkSize) ∧
    (exportChunkLists chunkSize threshold true pending).length
        = (pending.card + chunkSize - 1) / chunkSize ∧
    (exportChunkLists chunkSize threshold true pending).flatten
        = pending.sort (· ≤ ·) ∧
    (∀ c ∈ exportChunkLists chunkSize threshold force pending,
        (csvRows c).tail = (jsonDoc c).1) := by
  refine ⟨?_, ?_, ?_, ?_⟩
  · intro c hc
    unfold exportChunkLists at hc
    by_cases h : force = false ∧ pending.card < threshold
    · simp [h] at hc
    · rw [if_neg h] at hc
      exact chunksOf_le chunkSize _ c hc
  · unfold exportChunkLists
    simp only [Bool.true_eq_false, false_and, if_false]
    rw [chunksOf_length]
    simp
  · unfold exportChunkLists
    simp only [Bool.true_eq_false, false_and, if_false]
    exact chunksOf_flatten chunkSize hn _
  · intro c _
    rfl

/-- Witness for C4 at a concrete input: chunk size 2, threshold 5000, forced
flush of the three-user buffer `{"carol", "alice", "bob"}`. -/
theorem export_chunks_spec_witness :
    0 < 2 ∧
    ((∀ c ∈ exportChunkLists 2 5000 true {"carol", "alice", "bob"},
        c.length ≤ 2) ∧
    (exportChunkLists 2 5000 true {"carol", "alice", "bob"}).length
        = (({"carol", "alice", "bob"} : Finset String).card + 2 - 1) / 2 ∧
    (exportChunkLists 2 5000 true {"carol", "alice", "bob"}).flatten
        = ({"carol", "alice", "bob"} : Finset String).sort (· ≤ ·) ∧
    (∀ c ∈ exportChunkLists 2 5000 true {"carol", "alice", "bob"},
        (csvRows c).tail = (jsonDoc c).1)) :=
  ⟨by decide, export_chunks_spec 2 5000 {"carol", "alice", "bob"} true (by decide)⟩

/-- Evaluation helper: `Finset.sort` of a concrete set is the sorted
duplicate-free enumeration of its elements. -/
theorem sort_concrete (s : Finset String) (l : List String)
    (hs : List.Sorted (· ≤ ·) l) (hperm : s.val = (l : Multiset String)) :
    s.sort (· ≤ ·) = l := by
  apply List.eq_of_perm_of_sorted ?_ (Finset.sort_sorted _ _) hs
  rw [← Multiset.coe_eq_coe, Finset.sort_eq, hperm]

/-- Evaluation helper: string-list sortedness reduces to the (kernel-
computable) order on the underlying character lists. -/
theorem sorted_of_toList (l : List String)
    (h : l.Pairwise (fun a b => a.toList ≤ b.toList)) :
    List.Sorted (· ≤ ·) l :=
  h.imp (fun hab => String.le_iff_toList_le.mpr hab)

/-! ### C3: casing variants admitted in one `filter_new_users` call -/

/-- The candidate set of the spec's example scenario: a buffer insertion of
`{"Alice", "bob", "ALICE"}` with a case-insensitive duplicate. -/
def c3Candidates : Finset String := {"Alice", "bob", "ALICE"}

/-- Admission of the scenario's candidates into an empty store:
`(returned users, updated seen_users)`. -/
def c3Admitted : Finset String × Finset String := filterNewUsers ∅ c3Candidates

/-- The chunk lists of a forced `export_chunks` of the admitted users with
chunk size 2 (the scenario's configured maximum). -/
def c3Chunks : List (List String) :=
  exportChunkLists 2 USERS_EXPORT_THRESHOLD true c3Admitted.1

/-- Concrete value of the admitted set: all three candidates, including both
casing variants of "alice". -/
theorem c3Admitted_eval : c3Admitted = ({"Alice", "bob", "ALICE"}, {"alice", "bob"}) := by
  decide

/-- Concrete value of the exported chunks of the scenario. -/
theorem c3Chunks_eval : c3Chunks = [["ALICE", "Alice"], ["bob"]] := by
  have hset : c3Admitted.1 = ({"ALICE", "Alice", "bob"} : Finset String) := by decide
  have hsort : ({"ALICE", "Alice", "bob"} : Finset String).sort (· ≤ ·)
      = ["ALICE", "Alice", "bob"] :=
    sort_concrete _ _ (sorted_of_toList _ (by decide)) (by decide)
  unfold c3Chunks exportChunkLists
  rw [hset, hsort, if_neg (by simp)]
  decide

/-- **C3, counterexample** — In the spec's scenario (candidates
`{"Alice","bob","ALICE"}` admitted into an empty store, chunk size 2), a
forced `export_chunks` does **not** produce exactly 1 chunk of exactly 2
identities: `filter_new_users` admits *both* casing variants in the same
call, so the export produces 2 chunks, the first containing both `"ALICE"`
and `"Alice"`. -/
theorem c3_not_first_writer_wins :
    ¬ (c3Chunks.length = 1 ∧ ∀ c ∈ c3Chunks, c.length = 2) := by
  rw [c3Chunks_eval]
  decide

/-- **C3, amended** — Admitting `{"Alice","bob","ALICE"}` through
`filter_new_users` into an empty store returns all three strings (both casing
variants of "alice" are admitted by the same call — admission is *not*
first-writer-wins within one candidate set); a later
`filter_new_users({"alice"})` returns the empty set; and a forced
`export_chunks` with chunk size 2 produces exactly 2 chunks
`[["ALICE","Alice"], ["bob"]]`, the first holding both casing variants. -/
theorem c3_amended_scenario :
    c3Admitted.1 = ({"Alice", "bob", "ALICE"} : Finset String) ∧
    (filterNewUsers c3Admitted.2 {"alice"}).1 = ∅ ∧
    c3Chunks = [["ALICE", "Alice"], ["bob"]] ∧
    c3Chunks.length = 2 := by
  refine ⟨by decide, by decide, c3Chunks_eval, ?_⟩
  rw [c3Chunks_eval]
  decide

/-! ### C5: preservation of the DedupState invariant -/

/-- The state exhibiting the failure: subreddit `"x"` is discovered and
already fully processed; the queue is empty.  The invariant holds here. -/
def c5State : DedupSets := ⟨{"x"}, {"x"}, ∅, ∅⟩

/-- **C5, counterexample** — `mark_subreddit_queued` does **not** preserve the
DedupState invariant: queueing the already-processed subreddit `"x"` makes
`processed ∩ queued = {"x"} ≠ ∅`.  (The code adds to `queued_subreddits`
without checking `processed_subreddits`.) -/
theorem markQueued_breaks_invariant :
    DedupInvariant c5State ∧ ¬ DedupInvariant (markSubredditQueued c5State "x") := by
  decide

/-- **C5, amended** — `mark_subreddit_discovered` and `clear_queue` preserve
the DedupState invariant unconditionally; `mark_subreddit_processed`
preserves it provided the name is already discovered;
`mark_subreddit_queued` and `set_queue` preserve it provided the queued
names are not already processed.  (Unconditioned, `mark_subreddit_queued`/
`set_queue` can break disjointness and `mark_subreddit_processed` can break
`processed ⊆ discovered`.) -/
theorem dedup_ops_preserve_invariant (s : DedupSets) (name : String)
    (batch : List String)
    (hinv : DedupInvariant s)
    (hproc : pyLower name ∉ s.processed)
    (hdisc : pyLower name ∈ s.discovered)
    (hbatch : ∀ b ∈ batch, pyLower b ∉ s.processed) :
    DedupInvariant (markSubredditDiscovered s name).1 ∧
    DedupInvariant (markSubredditQueued s name) ∧
    DedupInvariant (markSubredditProcessed s name) ∧
    DedupInvariant (setQueue s batch) ∧
    DedupInvariant (clearQueue s) := by
  obtain ⟨hdisj, hsub⟩ := hinv
  have hdisj' : ∀ x, x ∈ s.processed → x ∈ s.queued → False := by
    intro x hx hq
    have : x ∈ s.processed ∩ s.queued := Finset.mem_inter.mpr ⟨hx, hq⟩
    rw [hdisj] at this
    exact absurd this (Finset.not_mem_empty x)
  refine ⟨?_, ?_, ?_, ?_, ?_⟩
  · unfold markSubredditDiscovered
    by_cases h : pyLower name ∈ s.discovered
    · simpa [h] using ⟨hdisj, hsub⟩
    · refine ⟨by simpa [h] using hdisj, ?_⟩
      simp only [h, if_neg, Bool.false_eq_true]
      exact hsub.trans (Finset.subset_insert _ _)
  · refine ⟨?_, hsub⟩
    rw [Finset.eq_empty_iff_forall_not_mem]
    intro x hx
    rw [Finset.mem_inter, markSubredditQueued] at hx
    obtain ⟨hxp, hxq⟩ := hx
    rcases Finset.mem_insert.mp hxq with rfl | hxq
    · exact hproc hxp
    · exact hdisj' x hxp hxq
  · constructor
    · rw [Finset.eq_empty_iff_forall_not_mem]
      intro x hx
      rw [Finset.mem_inter, markSubredditProcessed] at hx
      obtain ⟨hxp, hxq⟩ := hx
      obtain ⟨hne, hxq⟩ := Finset.mem_erase.mp hxq
      rcases Finset.mem_insert.mp hxp with rfl | hxp
      · exact hne rfl
      · exact hdisj' x hxp hxq
    · unfold markSubredditProcessed
      exact Finset.insert_subset hdisc hsub
  · refine ⟨?_, hsub⟩
    rw [Finset.eq_empty_iff_forall_not_mem]
    intro x hx
    rw [Finset.mem_inter, setQueue] at hx
    obtain ⟨hxp, hxq⟩ := hx
    simp only [List.mem_toFinset, List.mem_map] at hxq
    obtain ⟨b, hb, rfl⟩ := hxq
    exact hbatch b hb hxp
  · exact ⟨by simp [clearQueue], hsub⟩

/-- Witness for the amended C5 at a concrete input: the invariant state with
`discovered = {"a"}`, nothing processed or queued; name `"a"`, batch `["a"]`. -/
theorem dedup_ops_preserve_invariant_witness :
    (DedupInvariant (⟨{"a"}, ∅, ∅, ∅⟩ : DedupSets) ∧
      pyLower "a" ∉ (∅ : Finset String) ∧
      pyLower "a" ∈ ({"a"} : Finset String) ∧
      (∀ b ∈ ["a"], pyLower b ∉ (∅ : Finset String))) ∧
    (DedupInvariant (markSubredditDiscovered ⟨{"a"}, ∅, ∅, ∅⟩ "a").1 ∧
      DedupInvariant (markSubredditQueued ⟨{"a"}, ∅, ∅, ∅⟩ "a") ∧
      DedupInvariant (markSubredditProcessed ⟨{"a"}, ∅, ∅, ∅⟩ "a") ∧
      DedupInvariant (setQueue ⟨{"a"}, ∅, ∅, ∅⟩ ["a"]) ∧
      DedupInvariant (clearQueue ⟨{"a"}, ∅, ∅, ∅⟩)) :=
  ⟨⟨by decide, by decide, by decide, by decide⟩,
    dedup_ops_preserve_invariant ⟨{"a"}, ∅, ∅, ∅⟩ "a" ["a"]
      (by decide) (by decide) (by decide) (by decide)⟩

/-! ## Pipeline run traces (pipeline.py): admission, export, persistence,
crash/resume

`IntegratedPipeline` mutates one shared world: the dedup manager's
`seen_users` set, the exporter's `pending_users` buffer, the chunk files on
disk, and the two persisted state files (`dedup_users.txt` written by
`DeduplicationManager.save_state`, and the `pending_users` field of
`exporter_state.json` written by `UserExporter._save_state`).  Every
persistence step is fallible: `save_state` swallows write failures
(pipeline.py 157-158), and a failed full rewrite leaves the file in an
unspecified state, modelled by an explicit outcome together with a
`residue` set standing for whatever content the failed write left behind. -/

/-- Outcome of one file write or read. -/
inductive DiskOutcome
  | ok
  | ioError
deriving DecidableEq

structure PipeWorld where
  /-- `DeduplicationManager.seen_users` (lowercase names). -/
  seen : Finset String
  /-- `UserExporter.pending_users`. -/
  pending : Finset String
  /-- Identity lists of all chunk files written so far, in creation order. -/
  chunks : List (List String)
  /-- Persisted `dedup_users.txt` content. -/
  diskSeen : Finset String
  /-- Persisted `pending_users` field of `exporter_state.json`. -/
  diskPending : Finset String
deriving DecidableEq

/-- A fresh pipeline run: nothing seen, nothing pending, no files. -/
def initWorld : PipeWorld := ⟨∅, ∅, [], ∅, ∅⟩

/-- `UserExporter.add_users` (pipeline.py 456-471): candidates go through
`DeduplicationManager.filter_new_users`; the accepted subset joins
`pending_users`. -/
def addUsersOp (w : PipeWorld) (users : Finset String) : PipeWorld :=
  let r := filterNewUsers w.seen users
  { w with seen := r.2, pending := w.pending ∪ r.1 }

/-- `UserExporter.export_chunks` (pipeline.py 477-527) at the world level:
below threshold and unforced, or with an empty buffer, nothing happens;
otherwise the sorted buffer is sliced into chunk files, the buffer is
cleared, `_save_state` persists the (now empty) `pending_users`, and
`dedup.save_state(force=True)` tries to rewrite `dedup_users.txt`.  That
rewrite can fail: the failure is swallowed (pipeline.py 157-158) and the
call still returns, leaving the file with the unspecified `residue`
content.  (`oSave = ioError` also covers `_save_state` itself raising, in
which case the dedup save is never reached; the persisted `pending_users`
is `∅` either way, since it is only ever written after the clear, and a
torn write is re-read as the empty default by the guarded
`_load_state`.) -/
def exportOp (chunkSize threshold : Nat) (force : Bool) (oSave : DiskOutcome)
    (residue : Finset String) (w : PipeWorld) : PipeWorld :=
  if (force = false ∧ w.pending.card < threshold) ∨ w.pending = ∅ then w
  else
    { seen := w.seen,
      pending := ∅,
      chunks := w.chunks ++ chunksOf chunkSize (w.pending.sort (· ≤ ·)),
      diskSeen := match oSave with
        | .ok => w.seen
        | .ioError => residue,
      diskPending := ∅ }

/-- The periodic `DeduplicationManager.save_state` (pipeline.py 134-158)
reached from the user-ops counter: tries to rewrite `dedup_users.txt` from
the in-memory set; a failure is printed and swallowed, leaving the file
with the unspecified `residue` content (the rewrite opens with mode `w`, so
a failure can even truncate it). -/
def persistSeenOp (oSave : DiskOutcome) (residue : Finset String)
    (w : PipeWorld) : PipeWorld :=
  { w with diskSeen := match oSave with
      | .ok => w.seen
      | .ioError => residue }

/-- Process crash followed by restart: `DeduplicationManager._load_state`
(pipeline.py 111-132) and `UserExporter._load_state` (427-443) rebuild the
in-memory sets from the persisted files; either load failure is caught and
leaves the freshly-initialized empty set.  Already-written chunk files stay
on disk. -/
def resumeOp (oSeenLoad oPendLoad : DiskOutcome) (w : PipeWorld) : PipeWorld :=
  { w with
    seen := match oSeenLoad with
      | .ok => w.diskSeen
      | .ioError => ∅,
    pending := match oPendLoad with
      | .ok => w.diskPending
      | .ioError => ∅ }

/-- One pipeline event relevant to export accounting, carrying the outcomes
of its persistence I/O. -/
inductive PipeOp
  | addUsers (users : Finset String)
  | exportChunks (force : Bool) (oSave : DiskOutcome) (residue : Finset String)
  | persistSeen (oSave : DiskOutcome) (residue : Finset String)
  | resume (oSeenLoad oPendLoad : DiskOutcome)

/-- Effect of one event on the world. -/
def stepOp (chunkSize threshold : Nat) (w : PipeWorld) : PipeOp → PipeWorld
  | .addUsers users => addUsersOp w users
  | .exportChunks force oSave residue =>
      exportOp chunkSize threshold force oSave residue w
  | .persistSeen oSave residue => persistSeenOp oSave residue w
  | .resume oSeenLoad oPendLoad => resumeOp oSeenLoad oPendLoad w

/-- A whole run (with resumes at event boundaries). -/
def runOps (chunkSize threshold : Nat) (w : PipeWorld) :
    List PipeOp → PipeWorld
  | [] => w
  | op :: ops => runOps chunkSize threshold (stepOp chunkSize threshold w op) ops

/-- Whether an event is a crash/resume. -/
def opIsResume : PipeOp → Bool
  | .resume _ _ => true
  | _ => false

/-- Whether all persistence I/O of an event succeeded. -/
def opDiskOk : PipeOp → Bool
  | .addUsers _ => true
  | .exportChunks _ DiskOutcome.ok _ => true
  | .exportChunks _ DiskOutcome.ioError _ => false
  | .persistSeen DiskOutcome.ok _ => true
  | .persistSeen DiskOutcome.ioError _ => false
  | .resume DiskOutcome.ok DiskOutcome.ok => true
  | .resume _ _ => false

/-- `filter_new_users` only ever grows `seen_users`. -/
theorem filterNewUsers_seen_subset (seen users : Finset String) :
    seen ⊆ (filterNewUsers seen users).2 := by
  unfold filterNewUsers
  by_cases h : users.image pyLower \ seen = ∅
  · simp [h]
  · simp only [h, if_neg h]
    exact Finset.subset_union_left

/-- Every user returned by `filter_new_users` was unseen before the call and
is (lowercased) seen after it. -/
theorem filterNewUsers_mem_new (seen users : Finset String) :
    ∀ u ∈ (filterNewUsers seen users).1,
      pyLower u ∉ seen ∧ pyLower u ∈ (filterNewUsers seen users).2 := by
  unfold filterNewUsers
  by_cases h : users.image pyLower \ seen = ∅
  · simp [h]
  · simp only [h, if_neg h]
    intro u hu
    obtain ⟨-, hmem⟩ := Finset.mem_filter.mp hu
    exact ⟨(Finset.mem_sdiff.mp hmem).2, Finset.mem_union_right _ hmem⟩

/-- Export accounting within one run segment (between crashes): the disk is
not consulted, so this invariant survives arbitrary save failures. -/
def RunSegInv (w : PipeWorld) : Prop :=
  w.chunks.flatten.Nodup ∧
  (∀ u ∈ w.chunks.flatten, pyLower u ∈ w.seen) ∧
  (∀ u ∈ w.pending, pyLower u ∈ w.seen) ∧
  (∀ u ∈ w.pending, u ∉ w.chunks.flatten)

/-- Every non-resume event preserves the segment invariant, whatever its
disk outcomes. -/
theorem runSegInv_step (chunkSize threshold : Nat) (hn : 0 < chunkSize)
    (w : PipeWorld) (op : PipeOp) (hnr : opIsResume op = false)
    (h : RunSegInv w) :
    RunSegInv (stepOp chunkSize threshold w op) := by
  obtain ⟨h1, h2, h3, h4⟩ := h
  cases op with
  | addUsers users =>
      refine ⟨h1, ?_, ?_, ?_⟩
      · intro u hu
        exact filterNewUsers_seen_subset _ _ (h2 u hu)
      · intro u hu
        rcases Finset.mem_union.mp hu with hu | hu
        · exact filterNewUsers_seen_subset _ _ (h3 u hu)
        · exact ((filterNewUsers_mem_new _ _) u hu).2
      · intro u hu
        rcases Finset.mem_union.mp hu with hu | hu
        · exact h4 u hu
        · intro hflat
          exact ((filterNewUsers_mem_new _ _) u hu).1 (h2 u hflat)
  | exportChunks force oSave residue =>
      simp only [stepOp, exportOp]
      by_cases hcond :
          (force = false ∧ w.pending.card < threshold) ∨ w.pending = ∅
      · rw [if_pos hcond]
        exact ⟨h1, h2, h3, h4⟩
      · rw [if_neg hcond]
        have hmemsort : ∀ u, u ∈ w.pending.sort (· ≤ ·) ↔ u ∈ w.pending :=
          fun u => Finset.mem_sort _
        refine ⟨?_, ?_, ?_, ?_⟩
        · rw [List.flatten_append, chunksOf_flatten chunkSize hn]
          refine h1.append (Finset.sort_nodup _ _) ?_
          intro u hu hsort
          exact h4 u ((hmemsort u).mp hsort) hu
        · intro u hu
          rw [List.flatten_append, chunksOf_flatten chunkSize hn,
            List.mem_append] at hu
          rcases hu with hu | hu
          · exact h2 u hu
          · exact h3 u ((hmemsort u).mp hu)
        · intro u hu
          exact absurd hu (Finset.not_mem_empty u)
        · intro u hu
          exact absurd hu (Finset.not_mem_empty u)
  | persistSeen oSave residue =>
      exact ⟨h1, h2, h3, h4⟩
  | resume o1 o2 =>
      simp [opIsResume] at hnr

/-- The segment invariant holds along any resume-free run. -/
theorem runSegInv_runOps (chunkSize threshold : Nat) (hn : 0 < chunkSize) :
    ∀ (ops : List PipeOp) (w : PipeWorld),
      (∀ op ∈ ops, opIsResume op = false) → RunSegInv w →
      RunSegInv (runOps chunkSize threshold w ops) := by
  intro ops
  induction ops with
  | nil =>
      intro w _ h
      exact h
  | cons op ops ih =>
      intro w hops h
      exact ih _ (fun x hx => hops x (List.mem_cons_of_mem _ hx))
        (runSegInv_step chunkSize threshold hn w op
          (hops op (List.mem_cons_self _ _)) h)

/-- The full export-accounting invariant, tying the chunk files to the
persisted `dedup_users.txt`; it is maintained only while the persistence
I/O succeeds. -/
def ExportInv (w : PipeWorld) : Prop :=
  w.chunks.flatten.Nodup ∧
  (∀ u ∈ w.chunks.flatten, pyLower u ∈ w.diskSeen) ∧
  w.diskSeen ⊆ w.seen ∧
  (∀ u ∈ w.pending, pyLower u ∈ w.seen) ∧
  (∀ u ∈ w.pending, u ∉ w.chunks.flatten) ∧
  w.diskPending = ∅

/-- Every event whose persistence I/O succeeds preserves the full
invariant. -/
theorem exportInv_step (chunkSize threshold : Nat) (hn : 0 < chunkSize)
    (w : PipeWorld) (op : PipeOp) (hok : opDiskOk op = true)
    (h : ExportInv w) :
    ExportInv (stepOp chunkSize threshold w op) := by
  obtain ⟨h1, h2, h3, h4, h5, h6⟩ := h
  cases op with
  | addUsers users =>
      refine ⟨h1, h2, h3.trans (filterNewUsers_seen_subset _ _), ?_, ?_, h6⟩
      · intro u hu
        rcases Finset.mem_union.mp hu with hu | hu
        · exact filterNewUsers_seen_subset _ _ (h4 u hu)
        · exact ((filterNewUsers_mem_new _ _) u hu).2
      · intro u hu
        rcases Finset.mem_union.mp hu with hu | hu
        · exact h5 u hu
        · intro hflat
          exact ((filterNewUsers_mem_new _ _) u hu).1 (h3 (h2 u hflat))
  | exportChunks force oSave residue =>
      cases oSave with
      | ioError => simp [opDiskOk] at hok
      | ok =>
          simp only [stepOp, exportOp]
          by_cases hcond :
              (force = false ∧ w.pending.card < threshold) ∨ w.pending = ∅
          · rw [if_pos hcond]
            exact ⟨h1, h2, h3, h4, h5, h6⟩
          · rw [if_neg hcond]
            have hmemsort : ∀ u, u ∈ w.pending.sort (· ≤ ·) ↔ u ∈ w.pending :=
              fun u => Finset.mem_sort _
            refine ⟨?_, ?_, Finset.Subset.refl _, ?_, ?_, rfl⟩
            · rw [List.flatten_append, chunksOf_flatten chunkSize hn]
              refine h1.append (Finset.sort_nodup _ _) ?_
              intro u hu
              exact fun hsort => h5 u ((hmemsort u).mp hsort) hu
            · intro u hu
              rw [List.flatten_append, chunksOf_flatten chunkSize hn,
                List.mem_append] at hu
              rcases hu with hu | hu
              · exact h3 (h2 u hu)
              · exact h4 u ((hmemsort u).mp hu)
            · intro u hu
              exact absurd hu (Finset.not_mem_empty u)
            · intro u hu
              exact absurd hu (Finset.not_mem_empty u)
  | persistSeen oSave residue =>
      cases oSave with
      | ioError => simp [opDiskOk] at hok
      | ok =>
          exact ⟨h1, fun u hu => h3 (h2 u hu), Finset.Subset.refl _, h4, h5, h6⟩
  | resume o1 o2 =>
      cases o1 with
      | ioError => simp [opDiskOk] at hok
      | ok =>
          cases o2 with
          | ioError => simp [opDiskOk] at hok
          | ok =>
              refine ⟨h1, h2, Finset.Subset.refl _, ?_, ?_, h6⟩
              · intro u hu
                simp only [stepOp, resumeOp] at hu
                rw [h6] at hu
                exact absurd hu (Finset.not_mem_empty u)
              · intro u hu
                simp only [stepOp, resumeOp] at hu
                rw [h6] at hu
                exact absurd hu (Finset.not_mem_empty u)

/-- The full invariant holds along any run whose persistence I/O always
succeeds. -/
theorem exportInv_runOps (chunkSize threshold : Nat) (hn : 0 < chunkSize) :
    ∀ (ops : List PipeOp) (w : PipeWorld),
      (∀ op ∈ ops, opDiskOk op = true) → ExportInv w →
      ExportInv (runOps chunkSize threshold w ops) := by
  intro ops
  induction ops with
  | nil =>
      intro w _ h
      exact h
  | cons op ops ih =>
      intro w hops h
      exact ih _ (fun x hx => hops x (List.mem_cons_of_mem _ hx))
        (exportInv_step chunkSize threshold hn w op
          (hops op (List.mem_cons_self _ _)) h)

/-! ### C1: no duplicate export across a run -/

/-- The concrete trace exhibiting C1's failure: both casing variants of one
identity are admitted by a single `filter_new_users` call and then exported,
each once (all disk writes succeed). -/
def c1World : PipeWorld :=
  runOps USERS_CHUNK_SIZE USERS_EXPORT_THRESHOLD initWorld
    [.addUsers {"Alice", "ALICE"}, .exportChunks true DiskOutcome.ok ∅]

/-- Concrete value of the chunk files of the C1 trace. -/
theorem c1World_chunks : c1World.chunks = [["ALICE", "Alice"]] := by
  have hsort : ({"Alice", "ALICE"} : Finset String).sort (· ≤ ·)
      = ["ALICE", "Alice"] :=
    sort_concrete _ _ (sorted_of_toList _ (by decide)) (by decide)
  have h1 : stepOp USERS_CHUNK_SIZE USERS_EXPORT_THRESHOLD initWorld
      (PipeOp.addUsers {"Alice", "ALICE"})
      = ⟨{"alice"}, {"Alice", "ALICE"}, [], ∅, ∅⟩ := by decide
  have h2 : stepOp USERS_CHUNK_SIZE USERS_EXPORT_THRESHOLD
      ⟨{"alice"}, {"Alice", "ALICE"}, [], ∅, ∅⟩
      (PipeOp.exportChunks true DiskOutcome.ok ∅)
      = ⟨{"alice"}, ∅, [["ALICE", "Alice"]], {"alice"}, ∅⟩ := by
    simp only [stepOp, exportOp]
    rw [if_neg (by decide), hsort]
    decide
  unfold c1World
  simp only [runOps]
  rw [h1, h2]

/-- **C1, counterexample** — The union of the chunk files' identity lists can
contain the same (case-insensitive) identity twice: admitting
`{"Alice", "ALICE"}` in one `filter_new_users` call and forcing an export
writes one chunk holding both `"ALICE"` and `"Alice"`, two casing variants of
the single identity `alice` (and neither exported string is itself a member
of the lowercase `seen_users` set). -/
theorem c1_duplicate_identity_counterexample :
    c1World.chunks.flatten = ["ALICE", "Alice"] ∧
    pyLower "ALICE" = pyLower "Alice" ∧
    "ALICE" ≠ "Alice" ∧
    ¬ (c1World.chunks.flatten.map pyLower).Nodup := by
  have h := c1World_chunks
  refine ⟨by rw [h]; decide, by decide, by decide, ?_⟩
  rw [h]
  decide

/-- The trace showing why the no-duplicate-string guarantee needs its side
condition: `"A"` is exported, but the accompanying `dedup.save_state`
rewrite of `dedup_users.txt` fails and is swallowed (pipeline.py 157-158);
after a crash and resume the reloaded `seen_users` no longer contains
`"a"`, so `"A"` is re-admitted and re-exported. -/
def c1FailWorld : PipeWorld :=
  runOps USERS_CHUNK_SIZE USERS_EXPORT_THRESHOLD initWorld
    [.addUsers {"A"}, .exportChunks true DiskOutcome.ioError ∅,
      .resume DiskOutcome.ok DiskOutcome.ok, .addUsers {"A"},
      .exportChunks true DiskOutcome.ok ∅]

/-- A swallowed seen-users save failure followed by a crash/resume exports
the same string into two chunk files: even the string-level no-duplicate
guarantee fails across resumes unless the dedup state writes succeed. -/
theorem failed_save_resume_reexports :
    c1FailWorld.chunks = [["A"], ["A"]] ∧
    ¬ c1FailWorld.chunks.flatten.Nodup := by
  have hsortA : ({"A"} : Finset String).sort (· ≤ ·) = ["A"] :=
    sort_concrete _ _ (sorted_of_toList _ (by decide)) (by decide)
  have h1 : stepOp USERS_CHUNK_SIZE USERS_EXPORT_THRESHOLD initWorld
      (PipeOp.addUsers {"A"}) = ⟨{"a"}, {"A"}, [], ∅, ∅⟩ := by decide
  have h2 : stepOp USERS_CHUNK_SIZE USERS_EXPORT_THRESHOLD
      ⟨{"a"}, {"A"}, [], ∅, ∅⟩
      (PipeOp.exportChunks true DiskOutcome.ioError ∅)
      = ⟨{"a"}, ∅, [["A"]], ∅, ∅⟩ := by
    simp only [stepOp, exportOp]
    rw [if_neg (by decide), hsortA]
    decide
  have h3 : stepOp USERS_CHUNK_SIZE USERS_EXPORT_THRESHOLD
      ⟨{"a"}, ∅, [["A"]], ∅, ∅⟩
      (PipeOp.resume DiskOutcome.ok DiskOutcome.ok)
      = ⟨∅, ∅, [["A"]], ∅, ∅⟩ := by decide
  have h4 : stepOp USERS_CHUNK_SIZE USERS_EXPORT_THRESHOLD
      ⟨∅, ∅, [["A"]], ∅, ∅⟩ (PipeOp.addUsers {"A"})
      = ⟨{"a"}, {"A"}, [["A"]], ∅, ∅⟩ := by decide
  have h5 : stepOp USERS_CHUNK_SIZE USERS_EXPORT_THRESHOLD
      ⟨{"a"}, {"A"}, [["A"]], ∅, ∅⟩
      (PipeOp.exportChunks true DiskOutcome.ok ∅)
      = ⟨{"a"}, ∅, [["A"], ["A"]], {"a"}, ∅⟩ := by
    simp only [stepOp, exportOp]
    rw [if_neg (by decide), hsortA]
    decide
  unfold c1FailWorld
  simp only [runOps]
  rw [h1, h2, h3, h4, h5]
  exact ⟨rfl, by decide⟩

/-- **C1, amended** — The union of all chunk files' identity lists contains
no duplicate *string* — though distinct casing variants of one identity
admitted by the same `filter_new_users` call are each exported once — and
every exported string's lowercase form is in `seen_users`, in either of two
regimes: (a) within a single uninterrupted run (no crash/resume), whatever
disk failures its swallowed saves encounter; or (b) across crash/resumes at
operation boundaries, provided every `dedup_users.txt` write and every
state reload succeeds.  The side condition is necessary: a swallowed
seen-users save failure followed by a crash/resume re-admits and re-exports
an already-exported string (`failed_save_resume_reexports`). -/
theorem export_union_nodup_and_seen (chunkSize threshold : Nat)
    (ops : List PipeOp) (hn : 0 < chunkSize)
    (h : (∀ op ∈ ops, opIsResume op = false) ∨
      (∀ op ∈ ops, opDiskOk op = true)) :
    (runOps chunkSize threshold initWorld ops).chunks.flatten.Nodup ∧
    ∀ u ∈ (runOps chunkSize threshold initWorld ops).chunks.flatten,
      pyLower u ∈ (runOps chunkSize threshold initWorld ops).seen := by
  rcases h with h | h
  · have hinit : RunSegInv initWorld := by
      refine ⟨by simp [initWorld], ?_, ?_, ?_⟩ <;> simp [initWorld]
    have hres := runSegInv_runOps chunkSize threshold hn ops initWorld h hinit
    exact ⟨hres.1, hres.2.1⟩
  · have hinit : ExportInv initWorld := by
      refine ⟨by simp [initWorld], ?_, ?_, ?_, ?_, rfl⟩ <;>
        simp [initWorld]
    have hres := exportInv_runOps chunkSize threshold hn ops initWorld h hinit
    obtain ⟨h1, h2, h3, -, -, -⟩ := hres
    exact ⟨h1, fun u hu => h3 (h2 u hu)⟩

/-- Witness for the amended C1 at a concrete input: chunk size 1, threshold
0, the run that admits `{"a"}`, force-exports with a successful save, and
resumes after a crash with successful reloads. -/
theorem export_union_nodup_and_seen_witness :
    0 < 1 ∧
    (∀ op ∈ [PipeOp.addUsers {"a"},
        PipeOp.exportChunks true DiskOutcome.ok ∅,
        PipeOp.resume DiskOutcome.ok DiskOutcome.ok], opDiskOk op = true) ∧
    ((runOps 1 0 initWorld
        [.addUsers {"a"}, .exportChunks true DiskOutcome.ok ∅,
          .resume DiskOutcome.ok DiskOutcome.ok]).chunks.flatten.Nodup ∧
      ∀ u ∈ (runOps 1 0 initWorld
          [.addUsers {"a"}, .exportChunks true DiskOutcome.ok ∅,
            .resume DiskOutcome.ok DiskOutcome.ok]).chunks.flatten,
        pyLower u ∈ (runOps 1 0 initWorld
          [.addUsers {"a"}, .exportChunks true DiskOutcome.ok ∅,
            .resume DiskOutcome.ok DiskOutcome.ok]).seen) :=
  ⟨by decide, by decide,
    export_union_nodup_and_seen 1 0
      [.addUsers {"a"}, .exportChunks true DiskOutcome.ok ∅,
        .resume DiskOutcome.ok DiskOutcome.ok] (by decide)
      (Or.inr (by decide))⟩

/-! ## Recovery Controller: bounded rotate-and-retry

Three retry loops wrap calls to the remote source:
`fetch_with_retry` and the per-post `scrape_post_details` loop in
`mini/scrape_commenters.py`, and `_run_with_recovery` in `src/main.py`
backed by `GluetunController.restart_for_new_ip`.  Each is embedded as a
function of an outcome oracle indexed by attempt number. -/

/-- `fetch_with_retry` (scrape_commenters.py 480-500): up to `maxRetries`
attempts; a `TooManyRequestsError` (oracle returns `none`) triggers a
rotation and a retry except on the last attempt, where the empty post list
is returned.  Result: `(posts, attempts used)`, with the attempt counter
threaded. -/
def fetchWithRetryGo (oracle : Nat → Option (List String)) (attempt : Nat) :
    Nat → List String × Nat
  | 0 => ([], attempt)
  | r + 1 =>
      match oracle attempt with
      | some posts => (posts, attempt + 1)
      | none => fetchWithRetryGo oracle (attempt + 1) r

/-- `fetch_with_retry` from attempt 0. -/
def fetchWithRetry (oracle : Nat → Option (List String)) (maxRetries : Nat) :
    List String × Nat :=
  fetchWithRetryGo oracle 0 maxRetries

/-- Outcome of one `miner.scrape_post_details` call as classified by the
retry loop of `gather_commenters_for_subreddit` (scrape_commenters.py
530-569). -/
inductive PostFetch
  | ok (details : String)
  | rateLimited
  | recoverable
  | permanent
deriving DecidableEq

/-- The per-post retry loop (scrape_commenters.py 530-569):
`while retry < max_retries` with `max_retries = 8`; rate-limited and
recoverable errors rotate and increment `retry`; a permanent error or loop
exhaustion leaves `details = None`.  Result: `(details, final retry count)`,
recursing on the remaining budget. -/
def scrapePostGo (oracle : Nat → PostFetch) (retry : Nat) :
    Nat → Option String × Nat
  | 0 => (none, retry)
  | r + 1 =>
      match oracle retry with
      | .ok d => (some d, retry)
      | .rateLimited => scrapePostGo oracle (retry + 1) r
      | .recoverable => scrapePostGo oracle (retry + 1) r
      | .permanent => (none, retry)

/-- The per-post loop with the configured `max_retries = 8`
(scrape_commenters.py line 532). -/
def scrapePostDetailsLoop (oracle : Nat → PostFetch) : Option String × Nat :=
  scrapePostGo oracle 0 8

/-- Outcome of one Gluetun container rotation as observed by
`restart_for_new_ip` (gluetun_controller.py 144-192). -/
inductive RotOutcome
  | changed
  | same
  | unhealthy
  | apiError
deriving DecidableEq

/-- `GluetunController.restart_for_new_ip` (gluetun_controller.py 144-192)
at `restart_count = count`.  `none` models the raised
`GluetunControllerError` when the budget is already exhausted; otherwise
`some b` is the returned boolean.  The second component is the updated
`restart_count`: incremented after a successful container restart, reset to
0 only when the public IP actually changed, untouched when
`container.restart` itself raised `APIError`. -/
def restartForNewIp (maxAttempts count : Nat) (o : RotOutcome) :
    Option Bool × Nat :=
  if maxAttempts ≤ count then (none, count)
  else
    match o with
    | .apiError => (some false, count)
    | .unhealthy => (some false, count + 1)
    | .same => (some true, count + 1)
    | .changed => (some true, 0)

/-- `NSFWSubredditScraper._handle_rate_limit_or_block` (main.py 78-108):
a raised `GluetunControllerError` is caught and reported as recovery
failure. -/
def handleRateLimitOrBlock (maxAttempts count : Nat) (o : RotOutcome) :
    Bool × Nat :=
  match restartForNewIp maxAttempts count o with
  | (none, c) => (false, c)
  | (some b, c) => (b, c)

/-- The retry loop of `_run_with_recovery` (main.py 118-137), driven by a
finite stream of rate-limit/blocked events, each carrying the outcome of its
rotation: recovery success retries the generator; recovery failure re-raises
the original error.  Result: `(container rotation attempts performed,
whether the loop stopped by surfacing the failure)`. -/
def recoveryLoop (maxAttempts : Nat) (count : Nat) :
    List RotOutcome → Nat × Bool
  | [] => (0, false)
  | o :: rest =>
      match handleRateLimitOrBlock maxAttempts count o with
      | (false, _) => (if maxAttempts ≤ count then 0 else 1, true)
      | (true, c) =>
          let r := recoveryLoop maxAttempts c rest
          (r.1 + 1, r.2)

/-- `fetch_with_retry` uses at most `attempt + remaining` attempts. -/
theorem fetchWithRetryGo_le (oracle : Nat → Option (List String))
    (r attempt : Nat) :
    (fetchWithRetryGo oracle attempt r).2 ≤ attempt + r := by
  induction r generalizing attempt with
  | zero => simp [fetchWithRetryGo]
  | succ r ih =>
      unfold fetchWithRetryGo
      cases oracle attempt with
      | some posts => exact (by omega : attempt + 1 ≤ attempt + (r + 1))
      | none =>
          exact Nat.le_trans (ih (attempt + 1)) (by omega)

/-- When every attempt is rate-limited, `fetch_with_retry` exhausts its
budget and surfaces the failure as an empty post list. -/
theorem fetchWithRetryGo_all_fail (oracle : Nat → Option (List String))
    (r attempt : Nat)
    (h : ∀ i, attempt ≤ i → i < attempt + r → oracle i = none) :
    fetchWithRetryGo oracle attempt r = ([], attempt + r) := by
  induction r generalizing attempt with
  | zero => simp [fetchWithRetryGo]
  | succ r ih =>
      unfold fetchWithRetryGo
      rw [h attempt (Nat.le_refl _) (by omega),
        ih (attempt + 1) (fun i hi hi2 => h i (by omega) (by omega)),
        show attempt + 1 + r = attempt + (r + 1) from by omega]

/-- The per-post loop performs at most `retry + remaining` retries. -/
theorem scrapePostGo_le (oracle : Nat → PostFetch) (r retry : Nat) :
    (scrapePostGo oracle retry r).2 ≤ retry + r := by
  induction r generalizing retry with
  | zero => simp [scrapePostGo]
  | succ r ih =>
      unfold scrapePostGo
      cases oracle retry with
      | ok d => exact (by omega : retry ≤ retry + (r + 1))
      | rateLimited => exact Nat.le_trans (ih (retry + 1)) (by omega)
      | recoverable => exact Nat.le_trans (ih (retry + 1)) (by omega)
      | permanent => exact (by omega : retry ≤ retry + (r + 1))

/-- When every attempt is rate-limited, the per-post loop exhausts its budget
and leaves `details = None`. -/
theorem scrapePostGo_all_fail (oracle : Nat → PostFetch) (r retry : Nat)
    (h : ∀ i, retry ≤ i → i < retry + r → oracle i = PostFetch.rateLimited) :
    scrapePostGo oracle retry r = (none, retry + r) := by
  induction r generalizing retry with
  | zero => simp [scrapePostGo]
  | succ r ih =>
      unfold scrapePostGo
      rw [h retry (Nat.le_refl _) (by omega),
        ih (retry + 1) (fun i hi hi2 => h i (by omega) (by omega)),
        show retry + 1 + r = retry + (r + 1) from by omega]

/-- Reduction: a rate-limit event met with an exhausted budget re-raises at
once, with no further rotation. -/
theorem recoveryLoop_cons_exhausted (maxAttempts count : Nat)
    (o : RotOutcome) (rest : List RotOutcome) (hc : maxAttempts ≤ count) :
    recoveryLoop maxAttempts count (o :: rest) = (0, true) := by
  simp [recoveryLoop, handleRateLimitOrBlock, restartForNewIp, hc]

/-- Reduction: a healthy rotation with an unchanged IP consumes one budget
unit and retries. -/
theorem recoveryLoop_cons_same (maxAttempts count : Nat)
    (rest : List RotOutcome) (hc : ¬ maxAttempts ≤ count) :
    recoveryLoop maxAttempts count (RotOutcome.same :: rest) =
      ((recoveryLoop maxAttempts (count + 1) rest).1 + 1,
        (recoveryLoop maxAttempts (count + 1) rest).2) := by
  simp [recoveryLoop, handleRateLimitOrBlock, restartForNewIp, hc]

/-- Reduction: an unhealthy rotation surfaces the failure after its one
restart. -/
theorem recoveryLoop_cons_unhealthy (maxAttempts count : Nat)
    (rest : List RotOutcome) (hc : ¬ maxAttempts ≤ count) :
    recoveryLoop maxAttempts count (RotOutcome.unhealthy :: rest)
      = (1, true) := by
  simp [recoveryLoop, handleRateLimitOrBlock, restartForNewIp, hc]

/-- Reduction: a Docker API error during restart surfaces the failure. -/
theorem recoveryLoop_cons_apiError (maxAttempts count : Nat)
    (rest : List RotOutcome) (hc : ¬ maxAttempts ≤ count) :
    recoveryLoop maxAttempts count (RotOutcome.apiError :: rest)
      = (1, true) := by
  simp [recoveryLoop, handleRateLimitOrBlock, restartForNewIp, hc]

/-- Rotation bound for `_run_with_recovery`: without a successful IP change
(which is the one event allowed to reset the consecutive-failure counter),
at most `maxAttempts - count` rotations are performed. -/
theorem recoveryLoop_rotations_le (maxAttempts : Nat)
    (events : List RotOutcome) (count : Nat)
    (h : ∀ o ∈ events, o ≠ RotOutcome.changed) :
    (recoveryLoop maxAttempts count events).1 ≤ maxAttempts - count := by
  induction events generalizing count with
  | nil =>
      simp [recoveryLoop]
  | cons o rest ih =>
      by_cases hc : maxAttempts ≤ count
      · rw [recoveryLoop_cons_exhausted _ _ _ _ hc]
        exact Nat.zero_le _
      · cases o with
        | changed =>
            exact absurd rfl (h RotOutcome.changed (List.mem_cons_self _ _))
        | same =>
            rw [recoveryLoop_cons_same _ _ _ hc]
            have := ih (count + 1) (fun x hx => h x (List.mem_cons_of_mem _ hx))
            show (recoveryLoop maxAttempts (count + 1) rest).1 + 1
              ≤ maxAttempts - count
            omega
        | unhealthy =>
            rw [recoveryLoop_cons_unhealthy _ _ _ hc]
            show 1 ≤ maxAttempts - count
            omega
        | apiError =>
            rw [recoveryLoop_cons_apiError _ _ _ hc]
            show 1 ≤ maxAttempts - count
            omega

/-- When no rotation ever changes the IP and the rate-limit events outlast
the budget, the loop surfaces the failure instead of retrying forever. -/
theorem recoveryLoop_surfaces (maxAttempts : Nat)
    (events : List RotOutcome) (count : Nat)
    (hsame : ∀ o ∈ events, o = RotOutcome.same)
    (hlen : maxAttempts - count < events.length) :
    (recoveryLoop maxAttempts count events).2 = true := by
  induction events generalizing count with
  | nil => simp at hlen
  | cons o rest ih =>
      have ho : o = RotOutcome.same := hsame o (List.mem_cons_self _ _)
      subst ho
      by_cases hc : maxAttempts ≤ count
      · rw [recoveryLoop_cons_exhausted _ _ _ _ hc]
      · rw [recoveryLoop_cons_same _ _ _ hc]
        exact ih (count + 1) (fun x hx => hsame x (List.mem_cons_of_mem _ hx))
          (by simp at hlen; omega)

/-! ### C6: bounded rotate-and-retry per unit of work -/

/-- **C6** — Each retry loop rotates and retries only a bounded number of
times and then surfaces a failure for its unit of work:
(1) `fetch_with_retry` performs at most `maxRetries` attempts (default 5 at
    the primary call site, 8 for the per-post loop), and when every attempt
    is rate-limited it surfaces the failure as an empty post list after
    exactly `maxRetries` attempts;
(2) the per-post `scrape_post_details` loop performs at most 8 retries, and
    when every attempt is rate-limited it gives up with `details = None`;
(3) `_run_with_recovery` with `max_restart_attempts = maxAttempts` (default
    5) performs at most `maxAttempts` consecutive rotations when none
    obtains a new IP, and once the events outlast that budget it surfaces
    the original rate-limit error instead of retrying indefinitely. -/
theorem retry_rotation_bounded (maxRetries maxAttempts : Nat)
    (oracleF : Nat → Option (List String)) (oracleP : Nat → PostFetch)
    (events : List RotOutcome)
    (hF : ∀ i, i < maxRetries → oracleF i = none)
    (hP : ∀ i, i < 8 → oracleP i = PostFetch.rateLimited)
    (hsame : ∀ o ∈ events, o = RotOutcome.same)
    (hlen : maxAttempts < events.length) :
    ((∀ g : Nat → Option (List String),
        (fetchWithRetry g maxRetries).2 ≤ maxRetries) ∧
      fetchWithRetry oracleF maxRetries = ([], maxRetries)) ∧
    ((∀ g : Nat → PostFetch, (scrapePostDetailsLoop g).2 ≤ 8) ∧
      (scrapePostDetailsLoop oracleP).1 = none) ∧
    ((recoveryLoop maxAttempts 0 events).1 ≤ maxAttempts ∧
      (recoveryLoop maxAttempts 0 events).2 = true) := by
  refine ⟨⟨?_, ?_⟩, ⟨?_, ?_⟩, ?_, ?_⟩
  · intro g
    simpa using fetchWithRetryGo_le g maxRetries 0
  · simpa using fetchWithRetryGo_all_fail oracleF maxRetries 0
      (fun i _ hi => hF i (by omega))
  · intro g
    simpa using scrapePostGo_le g 8 0
  · rw [scrapePostDetailsLoop,
      scrapePostGo_all_fail oracleP 8 0 (fun i _ hi => hP i (by omega))]
  · simpa using recoveryLoop_rotations_le maxAttempts events 0
      (fun o ho => by rw [hsame o ho]; decide)
  · exact recoveryLoop_surfaces maxAttempts events 0 hsame (by omega)

/-- Witness for C6 at concrete inputs: budget 5 everywhere, every fetch
rate-limited, every rotation healthy but with an unchanged IP, six
consecutive rate-limit events. -/
theorem retry_rotation_bounded_witness :
    ((∀ i, i < 5 → (fun _ : Nat => (none : Option (List String))) i = none) ∧
      (∀ i, i < 8 → (fun _ : Nat => PostFetch.rateLimited) i = PostFetch.rateLimited) ∧
      (∀ o ∈ List.replicate 6 RotOutcome.same, o = RotOutcome.same) ∧
      5 < (List.replicate 6 RotOutcome.same).length) ∧
    (((∀ g : Nat → Option (List String), (fetchWithRetry g 5).2 ≤ 5) ∧
        fetchWithRetry (fun _ => none) 5 = ([], 5)) ∧
      ((∀ g : Nat → PostFetch, (scrapePostDetailsLoop g).2 ≤ 8) ∧
        (scrapePostDetailsLoop (fun _ => PostFetch.rateLimited)).1 = none) ∧
      ((recoveryLoop 5 0 (List.replicate 6 RotOutcome.same)).1 ≤ 5 ∧
        (recoveryLoop 5 0 (List.replicate 6 RotOutcome.same)).2 = true)) :=
  ⟨⟨fun _ _ => rfl, fun _ _ => rfl, by decide, by decide⟩,
    retry_rotation_bounded 5 5 (fun _ => none)
      (fun _ => PostFetch.rateLimited) (List.replicate 6 RotOutcome.same)
      (fun _ _ => rfl) (fun _ _ => rfl) (by decide) (by decide)⟩

/-! ## Checkpoint Store: `src/checkpoint.py` -/

/-- One entry of `discovered_subreddits`: `SubredditInfo.to_dict`
(discovery.py 13-21). -/
structure SubredditDict where
  subredditName : String
  subscribers : Nat
  over18 : Bool
deriving DecidableEq

/-- `ScraperState` (checkpoint.py 15-41). -/
structure ScraperState where
  discoveredSubreddits : List SubredditDict
  discoveredNames : Finset String
  exploreQueue : List String
  completedKeywords : List String
  currentPhase : String
deriving DecidableEq

/-- The dataclass defaults of `ScraperState`: empty collections, phase
`"init"`. -/
def initScraperState : ScraperState := ⟨[], ∅, [], [], "init"⟩

/-- The JSON document written by `ScraperState.to_dict` (checkpoint.py
24-31); the `discovered_names` set is serialized as a list (its enumeration
order is unspecified in Python, modelled here as the canonical sorted
enumeration — `set(...)` on load makes the order irrelevant). -/
structure StateDict where
  discoveredSubreddits : List SubredditDict
  discoveredNames : List String
  exploreQueue : List String
  completedKeywords : List String
  currentPhase : String
deriving DecidableEq

/-- `ScraperState.to_dict` (checkpoint.py 24-31). -/
def ScraperState.toDict (s : ScraperState) : StateDict :=
  ⟨s.discoveredSubreddits, s.discoveredNames.sort (· ≤ ·),
    s.exploreQueue, s.completedKeywords, s.currentPhase⟩

/-- `ScraperState.from_dict` (checkpoint.py 33-41): rebuilds the name set
from the serialized list. -/
def ScraperState.fromDict (d : StateDict) : ScraperState :=
  ⟨d.discoveredSubreddits, d.discoveredNames.toFinset,
    d.exploreQueue, d.completedKeywords, d.currentPhase⟩

/-- The checkpoint file as seen by `CheckpointManager`: absent, present but
unreadable/unparseable, or a valid JSON document. -/
inductive CheckpointFile
  | absent
  | corrupt
  | valid (d : StateDict)
deriving DecidableEq

/-- `CheckpointManager.save` (checkpoint.py 57-69) with the write
succeeding: the file now holds `state.to_dict()` (overwrite semantics). -/
def saveCheckpoint (s : ScraperState) : CheckpointFile :=
  .valid s.toDict

/-- `CheckpointManager.load` (checkpoint.py 71-94): a missing file returns
the absent sentinel `None`; a file that cannot be read or parsed is caught
by the `except` clause and also returns `None`; otherwise the parsed state
is returned. -/
def loadCheckpoint : CheckpointFile → Option ScraperState
  | .absent => none
  | .corrupt => none
  | .valid d => some (ScraperState.fromDict d)

/-- How `NSFWSubredditScraper.run` (main.py 162-166) interprets `load`: a
saved state replaces the in-memory state; the absent sentinel keeps the
dataclass defaults, i.e. phase `"init"`. -/
def resumeScraperState (f : CheckpointFile) : ScraperState :=
  match loadCheckpoint f with
  | some st => st
  | none => initScraperState

/-! ### C7: checkpoint round trip -/

/-- **C7** — The Checkpoint Store round-trips: for every scraper state `s`,
`load()` after `save(s)` returns exactly `s` (same phase, same pending
explore queue, same completed-keyword list, same discovered names and
subreddit records); and with no checkpoint file, `load()` returns the
absent sentinel, which `run` interprets as starting at phase `"init"`. -/
theorem checkpoint_round_trip (s : ScraperState) :
    loadCheckpoint (saveCheckpoint s) = some s ∧
    loadCheckpoint CheckpointFile.absent = none ∧
    resumeScraperState CheckpointFile.absent = initScraperState ∧
    (resumeScraperState CheckpointFile.absent).currentPhase = "init" := by
  refine ⟨?_, rfl, rfl, rfl⟩
  unfold saveCheckpoint loadCheckpoint ScraperState.toDict ScraperState.fromDict
  rcases s with ⟨subs, names, queue, completed, phase⟩
  simp [Finset.sort_toFinset]

/-! ### C10: unreadable checkpoint behaves like a missing one -/

/-- **C10** — When the checkpoint file exists but cannot be read or parsed
as valid JSON, `load()` does not raise: it returns the same absent sentinel
as when no file exists, so the run silently starts fresh at phase
`"init"`. -/
theorem corrupt_checkpoint_starts_fresh :
    loadCheckpoint CheckpointFile.corrupt = none ∧
    loadCheckpoint CheckpointFile.corrupt = loadCheckpoint CheckpointFile.absent ∧
    resumeScraperState CheckpointFile.corrupt = initScraperState ∧
    (resumeScraperState CheckpointFile.corrupt).currentPhase = "init" :=
  ⟨rfl, rfl, rfl, rfl⟩

/-! ## Orchestrator phase machine: `NSFWSubredditScraper.run`
(src/main.py 155-277)

The phase names are the ones in the code; the spec calls `keyword_search`
"search".  The spec's terminal phase "done" is realized as the checkpoint
deletion after a successful export (main.py 272-275). -/

/-- The work phases in execution order. -/
def workPhases : List String :=
  ["keyword_search", "popular", "new", "related", "export"]

/-- Observable outcome of one `run` invocation. -/
structure RunTrace where
  executed : List String
  finalPhase : String
  checkpointDeleted : Bool
deriving DecidableEq

/-- `NSFWSubredditScraper.run` (main.py 155-277) with `running` true
throughout (no interrupt): each discovery phase block executes iff the
current phase is the block's own phase or its immediate predecessor, and
sets `current_phase` to its own name; the export block always executes and
sets the phase to `"export"`; on completion the checkpoint is deleted. -/
def scraperRun (startPhase : String) : RunTrace :=
  let p0 := startPhase
  let (e1, p1) := if p0 = "init" ∨ p0 = "keyword_search"
    then (["keyword_search"], "keyword_search") else ([], p0)
  let (e2, p2) := if p1 = "keyword_search" ∨ p1 = "popular"
    then (["popular"], "popular") else ([], p1)
  let (e3, p3) := if p2 = "popular" ∨ p2 = "new"
    then (["new"], "new") else ([], p2)
  let (e4, _) := if p3 = "new" ∨ p3 = "related"
    then (["related"], "related") else ([], p3)
  ⟨e1 ++ e2 ++ e3 ++ e4 ++ ["export"], "export", true⟩

/-! ### C8: linear phase machine with resume -/

/-- **C8** — The phase machine is linear over
`init → keyword_search → popular → new → related → export` followed by the
terminal checkpoint deletion (the spec's "done"; the spec calls
`keyword_search` "search").  Resuming from a checkpoint recording phase `P`
executes exactly the suffix of the work phases starting at `P`: every phase
strictly before `P` is treated complete and not re-run, `P` itself is
re-entered, and no later phase is skipped. -/
theorem phase_machine_linear_resume :
    scraperRun "init" = ⟨workPhases, "export", true⟩ ∧
    scraperRun "keyword_search" = ⟨workPhases.drop 0, "export", true⟩ ∧
    scraperRun "popular" = ⟨workPhases.drop 1, "export", true⟩ ∧
    scraperRun "new" = ⟨workPhases.drop 2, "export", true⟩ ∧
    scraperRun "related" = ⟨workPhases.drop 3, "export", true⟩ ∧
    scraperRun "export" = ⟨workPhases.drop 4, "export", true⟩ := by
  decide

/-! ## Persistence failure semantics (C9)

Disk writes are modelled by an explicit outcome argument; a save path with
no exception handler is a function into `Except`, one wrapped in
`try/except` is a total function. -/

/-- `DEDUP_PERSIST_INTERVAL` (pipeline.py line 66). -/
def DEDUP_PERSIST_INTERVAL : Nat := 100

/-- `DeduplicationManager` with its two dirty-operation counters
(pipeline.py 100-101). -/
structure DedupMgrState where
  sets : DedupSets
  opsSinceSave : Nat
  userOpsSinceSave : Nat
deriving DecidableEq

/-- `DeduplicationManager.save_state` (pipeline.py 134-158): the subreddit
write and the user write are each wrapped in `try/except`; an I/O error is
printed and swallowed, the in-memory sets are never touched, and each dirty
counter resets only when its write succeeds.  The function is total: it
always returns normally. -/
def dedupSaveState (st : DedupMgrState) (force : Bool)
    (oSub oUsers : DiskOutcome) : DedupMgrState :=
  let st1 :=
    if force = true ∨ DEDUP_PERSIST_INTERVAL ≤ st.opsSinceSave then
      match oSub with
      | .ok => { st with opsSinceSave := 0 }
      | .ioError => st
    else st
  if force = true ∨ DEDUP_PERSIST_INTERVAL * 10 ≤ st1.userOpsSinceSave then
    match oUsers with
    | .ok => { st1 with userOpsSinceSave := 0 }
    | .ioError => st1
  else st1

/-- The fields persisted by `UserExporter._save_state` (pipeline.py
445-454). -/
structure ExporterStateRec where
  chunkCount : Nat
  totalExported : Nat
  totalUploaded : Nat
  pendingUsers : Finset String
deriving DecidableEq

/-- `UserExporter._save_state` (pipeline.py 445-454): the write is **not**
guarded by any handler; an I/O error propagates to the caller. -/
def exporterSaveState (st : ExporterStateRec) (o : DiskOutcome) :
    Except String ExporterStateRec :=
  match o with
  | .ok => .ok st
  | .ioError => .error "OSError"

/-- `PipelineState.save` (pipeline.py 574-580): the state-file write is
**not** guarded (an I/O error propagates); only after it succeeds is the
self-guarded `dedup.save_state(force=True)` invoked. -/
def pipelineStateSave (currentBatch : List String) (dedup : DedupMgrState)
    (oState oSub oUsers : DiskOutcome) : Except String DedupMgrState :=
  match oState with
  | .ioError => .error "OSError"
  | .ok => .ok (dedupSaveState dedup true oSub oUsers)

/-- `CheckpointManager.save` (checkpoint.py 57-69): guarded by `try/except`;
on an I/O error the previous file content survives and no exception
escapes. -/
def checkpointSave (s : ScraperState) (prev : CheckpointFile)
    (o : DiskOutcome) : CheckpointFile :=
  match o with
  | .ok => saveCheckpoint s
  | .ioError => prev

/-! ### C9: are disk failures during save ever fatal? -/

/-- **C9, counterexample** — Not every save path swallows I/O errors:
`UserExporter._save_state` and `PipelineState.save` have no exception
handler, so a disk failure there raises to the caller instead of being
logged and returning normally. -/
theorem c9_save_raises_counterexample :
    exporterSaveState ⟨0, 0, 0, ∅⟩ DiskOutcome.ioError
      = Except.error "OSError" ∧
    pipelineStateSave [] ⟨⟨∅, ∅, ∅, ∅⟩, 0, 0⟩ DiskOutcome.ioError
      DiskOutcome.ok DiskOutcome.ok = Except.error "OSError" :=
  ⟨rfl, rfl⟩

/-- **C9, amended** — Only the Dedup Store save
(`DeduplicationManager.save_state`) and the checkpoint save
(`CheckpointManager.save`) catch disk I/O errors, log them and return
without raising, leaving the in-memory sets unchanged (only a dirty counter
is kept; it resets solely on success); `UserExporter._save_state` and
`PipelineState.save` do **not** catch I/O errors — a disk failure there
propagates to the caller. -/
theorem save_failure_semantics (st : DedupMgrState) (force : Bool)
    (oSub oUsers : DiskOutcome) (est : ExporterStateRec)
    (batch : List String) (s : ScraperState) (prev : CheckpointFile) :
    (dedupSaveState st force oSub oUsers).sets = st.sets ∧
    dedupSaveState st force DiskOutcome.ioError DiskOutcome.ioError = st ∧
    checkpointSave s prev DiskOutcome.ioError = prev ∧
    exporterSaveState est DiskOutcome.ioError = Except.error "OSError" ∧
    pipelineStateSave batch st DiskOutcome.ioError oSub oUsers
      = Except.error "OSError" := by
  refine ⟨?_, ?_, rfl, rfl, rfl⟩
  · cases oSub <;> cases oUsers <;>
      simp only [dedupSaveState] <;> split_ifs <;> rfl
  · simp only [dedupSaveState]
    split_ifs <;> rfl

end RedditScraper
